import Mathlib

/-!
Verification of the AlphaYun game rule engine and episode state machine
(`src/model/env.py`), shallowly embedded in Lean.

Python integers are modelled as `Int`; the Python value `None` that may be
passed as an action id is modelled by `Option Int`.  Python truthiness on
integers (`if a1:`) is modelled as `≠ 0`.
-/

set_option linter.unusedVariables false
set_option linter.unreachableTactic false
set_option linter.unusedTactic false

namespace AlphaYun

/-- Game configuration (`Rule.__init__`, env.py lines 12-16). -/
structure Rule where
  n_max_energy : Int
  level : Int
  init_energy : Int
deriving DecidableEq

/-- The default configuration `Rule()`: `n_max_energy=5, level=3, init_energy=1`. -/
def defaultRule : Rule := ⟨5, 3, 1⟩

/-- `self.n_max_actions = 1 + self.level * 2` (env.py line 15). -/
def Rule.n_max_actions (r : Rule) : Int := 1 + r.level * 2

/-- `Rule.decode_action` (env.py lines 18-26).  Returns the triple
`(yun, attack, defense)`.  `None` decodes to `(0, 0, 0)`; id `0` is a charge;
`id < level + 1` is an attack at level `id`; everything else is a defense at
level `id - level`.  Note the source performs no range validation. -/
def Rule.decode_action (r : Rule) (action_id : Option Int) : Int × Int × Int :=
  match action_id with
  | none => (0, 0, 0)
  | some id =>
    if id = 0 then (1, 0, 0)
    else if id < r.level + 1 then (0, id, 0)
    else (0, 0, id - r.level)

/-- `Rule.encode_action` (env.py lines 28-34).  Python truthiness on the
integer arguments is `≠ 0`. -/
def Rule.encode_action (r : Rule) (yun attack defense : Int) : Int :=
  if yun ≠ 0 then 0
  else if attack ≠ 0 then attack
  else defense + r.level

/-- The adjudication chain of `Rule.step` (env.py lines 77-83):
`2` (agent win) if `a1 and a1 > a2 and a1 != d2`, else `1` (agent loss) if
`a2 and a2 > a1 and a2 != d1`, else `0` (continue). -/
def adjudicate (a1 a2 d1 d2 : Int) : Int :=
  if a1 ≠ 0 ∧ a1 > a2 ∧ a1 ≠ d2 then 2
  else if a2 ≠ 0 ∧ a2 > a1 ∧ a2 ≠ d1 then 1
  else 0

/-- Body of `Rule.step` after the two `decode_action` calls (env.py lines
57-83), taking the six decoded components.  `opp_next0` is the opponent's
provisional next energy; if negative it is forgiven (set to `0`, attack
nullified).  A negative agent provisional energy returns `(0, opp, 1)`
immediately; then the defense-overreach check `d1 > opponent_state`; then
the adjudication chain. -/
def Rule.stepDecoded (r : Rule) (agent_state opponent_state y1 a1 d1 y2 a2 d2 : Int) :
    Int × Int × Int :=
  let agent_next := min (agent_state + y1 - a1) r.n_max_energy
  let opp_next0 := min (opponent_state + y2 - a2) r.n_max_energy
  let opp_next := if opp_next0 < 0 then 0 else opp_next0
  let a2f := if opp_next0 < 0 then 0 else a2
  if agent_next < 0 then (0, opp_next, 1)
  else if d1 > opponent_state then (agent_next, opp_next, 1)
  else (agent_next, opp_next, adjudicate a1 a2f d1 d2)

/-- `Rule.step` (env.py lines 43-83): decodes both actions and runs the
transition body.  Returns `(agent_next_state, opponent_next_state,
game_next_state)` with game state `0` continue, `1` agent loses, `2` agent
wins. -/
def Rule.step (r : Rule) (agent_state opponent_state : Int)
    (agent_action opponent_action : Option Int) : Int × Int × Int :=
  let t1 := r.decode_action agent_action
  let t2 := r.decode_action opponent_action
  r.stepDecoded agent_state opponent_state t1.1 t1.2.1 t1.2.2 t2.1 t2.2.1 t2.2.2

/-- Decoder following the spec text (sections 4.1 and 7): decoding fails
(`none`, standing for `InvalidActionError`) outside `[0, 2·level]`, and
otherwise performs the stated charge/attack/defense decoding.  This
definition follows the spec words only, for comparison with the source
decoder `Rule.decode_action`. -/
def decode_action_specced (r : Rule) (id : Int) : Option (Int × Int × Int) :=
  if id < 0 ∨ 2 * r.level < id then none
  else if id = 0 then some (1, 0, 0)
  else if id < r.level + 1 then some (0, id, 0)
  else some (0, 0, id - r.level)

/-- `self.loss_state_id = self.N ** 2` (env.py line 99), with `N = n_max_energy + 1`. -/
def lossStateId (r : Rule) : Int := (r.n_max_energy + 1) ^ 2

/-- `self.win_state_id = self.N ** 2 + 1` (env.py line 98). -/
def winStateId (r : Rule) : Int := (r.n_max_energy + 1) ^ 2 + 1

/-- `YunEnv._get_obs` (env.py lines 129-136) as a function of the three state
fields it reads: game state `0` encodes the energy pair, `1` the loss
sentinel, anything else the win sentinel. -/
def getObsOf (r : Rule) (agent_state opponent_state game_state : Int) : Int :=
  if game_state = 0 then agent_state * (r.n_max_energy + 1) + opponent_state
  else if game_state = 1 then lossStateId r
  else winStateId r

/-- `YunEnv._oppo_obs` (env.py lines 138-145): the opponent's view swaps the
two energies and swaps the two sentinels. -/
def oppoObsOf (r : Rule) (agent_state opponent_state game_state : Int) : Int :=
  if game_state = 0 then opponent_state * (r.n_max_energy + 1) + agent_state
  else if game_state = 1 then winStateId r
  else lossStateId r

/-- `YunEnv.convert_states` (env.py lines 118-121): decode an observation
into the energy pair `(obs // n, obs % n)`. -/
def convert_states (r : Rule) (observation : Int) : Int × Int :=
  (observation / (r.n_max_energy + 1), observation % (r.n_max_energy + 1))

/-- The observation-level mirror: the opponent's observation of the round
encoded by `obs`.  On a non-terminal observation it swaps the two energies
recovered by `convert_states`; on the terminal sentinels it swaps loss and
win, exactly as `_oppo_obs` (lines 138-145) relates to `_get_obs`
(lines 129-136). -/
def mirrorObs (r : Rule) (obs : Int) : Int :=
  if obs < (r.n_max_energy + 1) ^ 2 then
    (convert_states r obs).2 * (r.n_max_energy + 1) + (convert_states r obs).1
  else if obs = lossStateId r then winStateId r
  else lossStateId r

/-- The per-episode mutable state of `YunEnv` that the step/reset logic
reads and writes: both energies, the game state, the step counter
`_i_step`, and the visited-observation history `obs_history`. -/
structure EnvState where
  agent_state : Int
  opponent_state : Int
  game_state : Int
  i_step : Nat
  obs_history : List Int
deriving DecidableEq

/-- `_get_obs` on an `EnvState`. -/
def getObs (r : Rule) (s : EnvState) : Int :=
  getObsOf r s.agent_state s.opponent_state s.game_state

/-- What one call to `YunEnv.step` returns (env.py line 219), together with
the environment state after the call. -/
structure StepResult where
  obs : Int
  reward : Int
  terminated : Bool
  truncated : Bool
  state : EnvState
deriving DecidableEq

/-- `YunEnv.step` (env.py lines 188-219).  The opponent's action id is an
input: the source obtains it from the opponent policy or by uniform
sampling, both of which are external to the rule logic.  Rendering is a
no-op.  The transition applies `Rule.step`, computes the reward
(`+1`/`-1`/`0`), reads the new observation, tests it against the history
before appending it, increments `_i_step`, and ors in the step-budget test
`_i_step >= max_episode_steps`. -/
def envStep (r : Rule) (max_episode_steps : Nat) (s : EnvState)
    (agent_action opponent_action : Option Int) : StepResult :=
  let t := r.step s.agent_state s.opponent_state agent_action opponent_action
  let s1 : EnvState :=
    { s with agent_state := t.1, opponent_state := t.2.1, game_state := t.2.2 }
  let terminated := decide (0 < s1.game_state)
  let reward : Int := if s1.game_state = 2 then 1 else if s1.game_state = 1 then -1 else 0
  let observation := getObs r s1
  let truncated0 := decide (observation ∈ s.obs_history)
  let s2 : EnvState :=
    { s1 with obs_history := s.obs_history ++ [observation], i_step := s.i_step + 1 }
  let truncated := truncated0 || decide (max_episode_steps ≤ s2.i_step)
  ⟨observation, reward, terminated, truncated, s2⟩

/-- A numpy-style draw `np.random.randint(0, n)` from the process-global RNG,
modelled as a stream `g` of naturals read at cursor `idx`: the draw is the
stream value reduced mod `n` (hence uniform over `[0, n)` for a uniform
stream), and the cursor advances by one. -/
def npRandint (g : Nat → Nat) (idx : Nat) (n : Nat) : Nat × Nat :=
  (g idx % n, idx + 1)

/-- `YunEnv.reset` (env.py lines 157-186).  `seed` is the argument passed to
`reset`, which the source forwards to `super().reset(seed=seed)` to seed
`self.np_random`; the energy draws, however, use the process-global numpy
RNG (`np.random.randint(0, self.N)`), modelled by the stream `g` and cursor
`idx`.  With `train = false` both energies are `init_energy`.  Returns the
fresh episode state and the new global-RNG cursor. -/
def resetState (r : Rule) (seed : Option Nat) (train : Bool)
    (g : Nat → Nat) (idx : Nat) : EnvState × Nat :=
  if train then
    let d1 := npRandint g idx (r.n_max_energy.toNat + 1)
    let d2 := npRandint g d1.2 (r.n_max_energy.toNat + 1)
    (⟨(d1.1 : Int), (d2.1 : Int), 0, 0, []⟩, d2.2)
  else
    (⟨r.init_energy, r.init_energy, 0, 0, []⟩, idx)

/-- A concrete global-RNG stream (the identity stream), used to exhibit that
the energy draws in `resetState` depend on the global stream position and
not on the seed argument. -/
def sampleStream : Nat → Nat := fun i => i

/-- Iterate `envStep` over a list of (agent action, opponent action) pairs,
keeping only the evolving environment state. -/
def runFrom (r : Rule) (max_episode_steps : Nat) (s : EnvState) :
    List (Option Int × Option Int) → EnvState
  | [] => s
  | ab :: rest => runFrom r max_episode_steps (envStep r max_episode_steps s ab.1 ab.2).state rest

/-! ## Helper lemmas -/

/-- Both decoded levels of a nonnegative action id are nonnegative. -/
lemma decode_action_nonneg (r : Rule) (id : Int) (h : 0 ≤ id) :
    0 ≤ (r.decode_action (some id)).2.1 ∧ 0 ≤ (r.decode_action (some id)).2.2 := by
  simp only [Rule.decode_action]
  split_ifs <;> dsimp only <;> omega

/-- Mirroring an in-range encoded energy pair swaps the two energies. -/
lemma mirrorObs_encode (r : Rule) (x y : Int) (hx : 0 ≤ x) (hx' : x ≤ r.n_max_energy)
    (hy : 0 ≤ y) (hy' : y ≤ r.n_max_energy) :
    mirrorObs r (x * (r.n_max_energy + 1) + y) = y * (r.n_max_energy + 1) + x := by
  have hobs : x * (r.n_max_energy + 1) + y < (r.n_max_energy + 1) ^ 2 := by nlinarith
  unfold mirrorObs convert_states
  rw [if_pos hobs]
  dsimp only
  rw [show x * (r.n_max_energy + 1) + y = y + (r.n_max_energy + 1) * x from by ring,
    Int.add_mul_emod_self_left, Int.add_mul_ediv_left y x (by omega),
    Int.emod_eq_of_lt hy (by omega), Int.ediv_eq_zero_of_lt hy (by omega)]
  ring

/-- Mirroring the loss sentinel yields the win sentinel. -/
lemma mirrorObs_loss (r : Rule) : mirrorObs r (lossStateId r) = winStateId r := by
  unfold mirrorObs lossStateId winStateId
  rw [if_neg (lt_irrefl _), if_pos rfl]

/-- Mirroring the win sentinel yields the loss sentinel. -/
lemma mirrorObs_win (r : Rule) : mirrorObs r (winStateId r) = lossStateId r := by
  unfold mirrorObs lossStateId winStateId
  rw [if_neg (by linarith), if_neg (by linarith)]

/-- The observation mirror is an involution on the observation space. -/
lemma mirrorObs_mirrorObs (r : Rule) (hN : 0 ≤ r.n_max_energy) (obs : Int)
    (h0 : 0 ≤ obs) (h1 : obs ≤ (r.n_max_energy + 1) ^ 2 + 1) :
    mirrorObs r (mirrorObs r obs) = obs := by
  rcases lt_or_le obs ((r.n_max_energy + 1) ^ 2) with hlt | hge
  · have hN0 : (0:Int) < r.n_max_energy + 1 := by omega
    have hq0 : 0 ≤ obs / (r.n_max_energy + 1) := Int.ediv_nonneg h0 (by omega)
    have hr0 : 0 ≤ obs % (r.n_max_energy + 1) := Int.emod_nonneg obs (by omega)
    have hr1 : obs % (r.n_max_energy + 1) < r.n_max_energy + 1 := Int.emod_lt_of_pos obs hN0
    have hsplit : (r.n_max_energy + 1) * (obs / (r.n_max_energy + 1)) +
        obs % (r.n_max_energy + 1) = obs := Int.ediv_add_emod obs (r.n_max_energy + 1)
    have hq1 : obs / (r.n_max_energy + 1) < r.n_max_energy + 1 := by
      by_contra hcon
      push_neg at hcon
      have hmul : (r.n_max_energy + 1) * (r.n_max_energy + 1) ≤
          (r.n_max_energy + 1) * (obs / (r.n_max_energy + 1)) :=
        mul_le_mul_of_nonneg_left hcon (by omega)
      have hp : (r.n_max_energy + 1) ^ 2 = (r.n_max_energy + 1) * (r.n_max_energy + 1) :=
        pow_two _
      linarith
    have hobs_eq : obs = (obs / (r.n_max_energy + 1)) * (r.n_max_energy + 1) +
        obs % (r.n_max_energy + 1) := by linarith [hsplit]
    calc mirrorObs r (mirrorObs r obs)
        = mirrorObs r (mirrorObs r ((obs / (r.n_max_energy + 1)) * (r.n_max_energy + 1) +
            obs % (r.n_max_energy + 1))) := by rw [← hobs_eq]
      _ = mirrorObs r ((obs % (r.n_max_energy + 1)) * (r.n_max_energy + 1) +
            obs / (r.n_max_energy + 1)) := by
          rw [mirrorObs_encode r _ _ hq0 (by omega) hr0 (by omega)]
      _ = (obs / (r.n_max_energy + 1)) * (r.n_max_energy + 1) +
            obs % (r.n_max_energy + 1) := by
          rw [mirrorObs_encode r _ _ hr0 (by omega) hq0 (by omega)]
      _ = obs := hobs_eq.symm
  · obtain hA | hB : obs = lossStateId r ∨ obs = winStateId r := by
      unfold lossStateId winStateId
      generalize (r.n_max_energy + 1) ^ 2 = S at hge h1 ⊢
      omega
    · rw [hA, mirrorObs_loss, mirrorObs_win]
    · rw [hB, mirrorObs_win, mirrorObs_loss]

/-- One `envStep` truncates exactly when the new observation was already in
the history or the incremented step counter reaches the step budget. -/
lemma envStep_truncated_iff (r : Rule) (K : Nat) (s : EnvState) (a b : Option Int) :
    (envStep r K s a b).truncated = true ↔
      ((envStep r K s a b).obs ∈ s.obs_history ∨ K ≤ s.i_step + 1) := by
  unfold envStep
  dsimp only
  simp [Bool.or_eq_true, decide_eq_true_eq]

/-- Running a list of steps adds its length to the step counter. -/
lemma runFrom_i_step (r : Rule) (K : Nat) (acts : List (Option Int × Option Int)) :
    ∀ s : EnvState, (runFrom r K s acts).i_step = s.i_step + acts.length := by
  induction acts with
  | nil => intro s; simp [runFrom]
  | cons ab rest ih =>
    intro s
    have hstep : (envStep r K s ab.1 ab.2).state.i_step = s.i_step + 1 := rfl
    simp only [runFrom, ih, hstep, List.length_cons]
    omega

/-! ## Claims -/

/-- C1.  The two overspend cases of `Rule.step` are asymmetric.  If the
opponent's provisional next energy is negative, the returned opponent
energy is `0`, the opponent's attack is treated as `0`, and the round
proceeds through the remaining checks; if the agent's provisional next
energy is negative, the function returns `(0, opponentNext, 1)` at once,
skipping the defense-overreach check and the adjudication. -/
theorem step_overspend_asymmetry (r : Rule) (s1 s2 : Int) (act1 act2 : Option Int) :
    (min (s2 + (r.decode_action act2).1 - (r.decode_action act2).2.1) r.n_max_energy < 0 →
      (r.step s1 s2 act1 act2).2.1 = 0 ∧
      (r.step s1 s2 act1 act2).2.2 =
        (if min (s1 + (r.decode_action act1).1 - (r.decode_action act1).2.1)
              r.n_max_energy < 0 then 1
         else if s2 < (r.decode_action act1).2.2 then 1
         else adjudicate (r.decode_action act1).2.1 0 (r.decode_action act1).2.2
                (r.decode_action act2).2.2)) ∧
    (min (s1 + (r.decode_action act1).1 - (r.decode_action act1).2.1) r.n_max_energy < 0 →
      r.step s1 s2 act1 act2 =
        (0,
         if min (s2 + (r.decode_action act2).1 - (r.decode_action act2).2.1)
              r.n_max_energy < 0 then 0
         else min (s2 + (r.decode_action act2).1 - (r.decode_action act2).2.1)
                r.n_max_energy,
         1)) := by
  unfold Rule.step Rule.stepDecoded
  generalize r.decode_action act1 = t1
  generalize r.decode_action act2 = t2
  obtain ⟨y1, a1, d1⟩ := t1
  obtain ⟨y2, a2, d2⟩ := t2
  simp only
  constructor
  · intro h2
    split_ifs <;> simp_all
  · intro h1
    split_ifs <;> simp_all

/-- Witness for C1 at energies `(0,0)`, both players playing Attack(3):
both provisional energies are `-3 < 0`. -/
theorem step_overspend_asymmetry_witness :
    (defaultRule.step 0 0 (some 3) (some 3)).2.1 = 0 ∧
    defaultRule.step 0 0 (some 3) (some 3) = (0, 0, 1) := by
  have h := step_overspend_asymmetry defaultRule 0 0 (some 3) (some 3)
  exact ⟨(h.1 (by decide)).1, h.2 (by decide)⟩

/-- C3.  If the agent's provisional next energy is not negative and the
agent's defend level exceeds the opponent's original (pre-transition)
energy, `Rule.step` returns outcome `1` (agent loses) regardless of the
opponent's action, with the already-computed next energies. -/
theorem step_defense_overreach (r : Rule) (s1 s2 : Int) (act1 act2 : Option Int)
    (hagent : 0 ≤ min (s1 + (r.decode_action act1).1 - (r.decode_action act1).2.1)
        r.n_max_energy)
    (hd : s2 < (r.decode_action act1).2.2) :
    r.step s1 s2 act1 act2 =
      (min (s1 + (r.decode_action act1).1 - (r.decode_action act1).2.1) r.n_max_energy,
       if min (s2 + (r.decode_action act2).1 - (r.decode_action act2).2.1)
            r.n_max_energy < 0 then 0
       else min (s2 + (r.decode_action act2).1 - (r.decode_action act2).2.1)
              r.n_max_energy,
       1) := by
  unfold Rule.step Rule.stepDecoded
  revert hagent hd
  generalize r.decode_action act1 = t1
  generalize r.decode_action act2 = t2
  obtain ⟨y1, a1, d1⟩ := t1
  obtain ⟨y2, a2, d2⟩ := t2
  intro hagent hd
  simp only
  split_ifs <;> simp_all <;> omega

/-- Witness for C3: the spec's scenario C — the agent plays Defend(3)
(id 6) while the opponent's energy is `1`. -/
theorem step_defense_overreach_witness :
    defaultRule.step 1 1 (some 6) (some 0) = (1, 2, 1) := by
  have h := step_defense_overreach defaultRule 1 1 (some 6) (some 0)
    (by decide) (by decide)
  exact h

/-- C4.  From any energies in `[0, maxEnergy]` and any action ids in
`[0, 2·level]`, both energies returned by `Rule.step` are in
`[0, maxEnergy]`. -/
theorem step_energy_bounds (r : Rule) (s1 s2 id1 id2 : Int)
    (h1 : 0 ≤ s1) (h1' : s1 ≤ r.n_max_energy)
    (h2 : 0 ≤ s2) (h2' : s2 ≤ r.n_max_energy)
    (h3 : 0 ≤ id1) (h3' : id1 ≤ 2 * r.level)
    (h4 : 0 ≤ id2) (h4' : id2 ≤ 2 * r.level) :
    0 ≤ (r.step s1 s2 (some id1) (some id2)).1 ∧
    (r.step s1 s2 (some id1) (some id2)).1 ≤ r.n_max_energy ∧
    0 ≤ (r.step s1 s2 (some id1) (some id2)).2.1 ∧
    (r.step s1 s2 (some id1) (some id2)).2.1 ≤ r.n_max_energy := by
  unfold Rule.step Rule.stepDecoded
  generalize r.decode_action (some id1) = t1
  generalize r.decode_action (some id2) = t2
  obtain ⟨y1, a1, d1⟩ := t1
  obtain ⟨y2, a2, d2⟩ := t2
  simp only
  split_ifs <;> dsimp only <;> omega

/-- Witness for C4 at a concrete in-range input. -/
theorem step_energy_bounds_witness :
    0 ≤ (defaultRule.step 2 2 (some 2) (some 0)).1 ∧
    (defaultRule.step 2 2 (some 2) (some 0)).1 ≤ defaultRule.n_max_energy ∧
    0 ≤ (defaultRule.step 2 2 (some 2) (some 0)).2.1 ∧
    (defaultRule.step 2 2 (some 2) (some 0)).2.1 ≤ defaultRule.n_max_energy := by
  exact step_energy_bounds defaultRule 2 2 2 0 (by decide) (by decide) (by decide)
    (by decide) (by decide) (by decide) (by decide) (by decide)

/-- C2.  When neither punishment fires (the agent's provisional energy is
nonnegative and the agent's defend level does not exceed the opponent's
original energy), the outcome of `Rule.step` on valid action ids is `2`
(agent wins) iff `attack1 > 0 ∧ attack1 > attack2 ∧ attack1 ≠ defend2`,
otherwise `1` (agent loses) iff `attack2 > 0 ∧ attack2 > attack1 ∧
attack2 ≠ defend1`, otherwise `0` (continue), where `attack2` is the
opponent's attack after the forgiveness rule; and the spec's two worked
scenarios hold. -/
theorem step_adjudication (r : Rule) (s1 s2 id1 id2 : Int)
    (h1 : 0 ≤ id1) (h1' : id1 ≤ 2 * r.level)
    (h2 : 0 ≤ id2) (h2' : id2 ≤ 2 * r.level)
    (hagent : 0 ≤ min (s1 + (r.decode_action (some id1)).1 -
        (r.decode_action (some id1)).2.1) r.n_max_energy)
    (hdef : ¬ s2 < (r.decode_action (some id1)).2.2) :
    ((r.step s1 s2 (some id1) (some id2)).2.2 = 2 ↔
      0 < (r.decode_action (some id1)).2.1 ∧
      (if min (s2 + (r.decode_action (some id2)).1 - (r.decode_action (some id2)).2.1)
           r.n_max_energy < 0 then 0 else (r.decode_action (some id2)).2.1) <
        (r.decode_action (some id1)).2.1 ∧
      (r.decode_action (some id1)).2.1 ≠ (r.decode_action (some id2)).2.2) ∧
    ((r.step s1 s2 (some id1) (some id2)).2.2 = 1 ↔
      ¬ (0 < (r.decode_action (some id1)).2.1 ∧
         (if min (s2 + (r.decode_action (some id2)).1 - (r.decode_action (some id2)).2.1)
              r.n_max_energy < 0 then 0 else (r.decode_action (some id2)).2.1) <
           (r.decode_action (some id1)).2.1 ∧
         (r.decode_action (some id1)).2.1 ≠ (r.decode_action (some id2)).2.2) ∧
      (0 < (if min (s2 + (r.decode_action (some id2)).1 - (r.decode_action (some id2)).2.1)
              r.n_max_energy < 0 then 0 else (r.decode_action (some id2)).2.1) ∧
       (r.decode_action (some id1)).2.1 <
         (if min (s2 + (r.decode_action (some id2)).1 - (r.decode_action (some id2)).2.1)
            r.n_max_energy < 0 then 0 else (r.decode_action (some id2)).2.1) ∧
       (if min (s2 + (r.decode_action (some id2)).1 - (r.decode_action (some id2)).2.1)
          r.n_max_energy < 0 then 0 else (r.decode_action (some id2)).2.1) ≠
         (r.decode_action (some id1)).2.2)) ∧
    ((r.step s1 s2 (some id1) (some id2)).2.2 = 0 ↔
      ¬ (0 < (r.decode_action (some id1)).2.1 ∧
         (if min (s2 + (r.decode_action (some id2)).1 - (r.decode_action (some id2)).2.1)
              r.n_max_energy < 0 then 0 else (r.decode_action (some id2)).2.1) <
           (r.decode_action (some id1)).2.1 ∧
         (r.decode_action (some id1)).2.1 ≠ (r.decode_action (some id2)).2.2) ∧
      ¬ (0 < (if min (s2 + (r.decode_action (some id2)).1 - (r.decode_action (some id2)).2.1)
               r.n_max_energy < 0 then 0 else (r.decode_action (some id2)).2.1) ∧
         (r.decode_action (some id1)).2.1 <
           (if min (s2 + (r.decode_action (some id2)).1 - (r.decode_action (some id2)).2.1)
              r.n_max_energy < 0 then 0 else (r.decode_action (some id2)).2.1) ∧
         (if min (s2 + (r.decode_action (some id2)).1 - (r.decode_action (some id2)).2.1)
            r.n_max_energy < 0 then 0 else (r.decode_action (some id2)).2.1) ≠
           (r.decode_action (some id1)).2.2)) ∧
    defaultRule.step 2 2 (some 2) (some 0) = (0, 3, 2) ∧
    defaultRule.step 3 3 (some 2) (some 5) = (1, 3, 0) := by
  obtain ⟨ha1, hd1⟩ := decode_action_nonneg r id1 h1
  obtain ⟨ha2, hd2⟩ := decode_action_nonneg r id2 h2
  refine ⟨?_, ?_, ?_, by decide, by decide⟩ <;>
  · unfold Rule.step Rule.stepDecoded adjudicate
    revert hagent hdef ha1 hd1 ha2 hd2
    generalize r.decode_action (some id1) = t1
    generalize r.decode_action (some id2) = t2
    obtain ⟨y1, a1, d1⟩ := t1
    obtain ⟨y2, a2, d2⟩ := t2
    intro hagent hdef ha1 hd1 ha2 hd2
    dsimp only
    split_ifs <;> dsimp only <;> (try omega) <;> simp_all <;> omega

/-- Witness for C2: the spec's scenario A as an instance of the general
adjudication statement. -/
theorem step_adjudication_witness :
    defaultRule.step 2 2 (some 2) (some 0) = (0, 3, 2) := by
  have h := step_adjudication defaultRule 2 2 2 0 (by decide) (by decide)
    (by decide) (by decide) (by decide) (by decide)
  exact h.2.2.2.1

/-- C7.  The action codec round-trips: every valid `(yun, attack, defense)`
triple survives encode-then-decode, and every action id in `[0, 2·level]`
survives decode-then-encode. -/
theorem action_codec_round_trip (r : Rule) (hl : 1 ≤ r.level) :
    r.decode_action (some (r.encode_action 1 0 0)) = (1, 0, 0) ∧
    (∀ a : Int, 1 ≤ a → a ≤ r.level →
      r.decode_action (some (r.encode_action 0 a 0)) = (0, a, 0)) ∧
    (∀ d : Int, 1 ≤ d → d ≤ r.level →
      r.decode_action (some (r.encode_action 0 0 d)) = (0, 0, d)) ∧
    (∀ id : Int, 0 ≤ id → id ≤ 2 * r.level →
      r.encode_action (r.decode_action (some id)).1 (r.decode_action (some id)).2.1
        (r.decode_action (some id)).2.2 = id) := by
  refine ⟨?_, fun a ha ha' => ?_, fun d hd hd' => ?_, fun id hi hi' => ?_⟩ <;>
  · simp only [Rule.decode_action, Rule.encode_action]
    split_ifs <;>
      first
        | rfl
        | omega
        | (simp_all [Prod.ext_iff] <;> omega)
        | simp_all [Prod.ext_iff]

/-- Witness for C7: Attack(2) round-trips under the default rule. -/
theorem action_codec_round_trip_witness :
    defaultRule.decode_action (some (defaultRule.encode_action 0 2 0)) = (0, 2, 0) := by
  exact (action_codec_round_trip defaultRule (by decide)).2.1 2 (by decide) (by decide)

/-- C8, counterexample.  The source decoder does not fail outside
`[0, 2·level]`: where the spec-side decoder reports a failure (`none`),
`Rule.decode_action` happily returns a triple — id `7` under the default
rule (level 3, valid ids `[0, 6]`) decodes to a Defend(4), and id `-1`
decodes to an Attack(-1). -/
theorem decode_out_of_range_counterexample :
    decode_action_specced defaultRule 7 = none ∧
    defaultRule.decode_action (some 7) = (0, 0, 4) ∧
    decode_action_specced defaultRule (-1) = none ∧
    defaultRule.decode_action (some (-1)) = (0, -1, 0) := by decide

/-- C8, amended.  `Rule.decode_action` performs no range validation and
never fails: on ids in `[0, 2·level]` it agrees with the spec-side decoder,
ids above `2·level` decode to a defense at level `id - level` (exceeding
`rule.level`), and negative ids decode to an attack at the negative level
`id`. -/
theorem decode_total_no_validation (r : Rule) (hl : 1 ≤ r.level) (id : Int) :
    (0 ≤ id → id ≤ 2 * r.level →
      decode_action_specced r id = some (r.decode_action (some id))) ∧
    (2 * r.level < id → r.decode_action (some id) = (0, 0, id - r.level)) ∧
    (id < 0 → r.decode_action (some id) = (0, id, 0)) := by
  refine ⟨fun h h' => ?_, fun h => ?_, fun h => ?_⟩ <;>
  · simp only [Rule.decode_action, decode_action_specced]
    split_ifs <;>
      first
        | rfl
        | omega
        | (simp_all [Prod.ext_iff] <;> omega)
        | simp_all [Prod.ext_iff]

/-- Witness for C8's amended statement: in-range id `5` decodes identically
under the source decoder and the spec-side decoder. -/
theorem decode_total_no_validation_witness :
    decode_action_specced defaultRule 5 = some (defaultRule.decode_action (some 5)) := by
  exact (decode_total_no_validation defaultRule (by decide) 5).1 (by decide) (by decide)

/-- C10.  The action id `None` decodes to `(0, 0, 0)`.  Consequently (for
nonnegative energies and a nonnegative energy cap) a player playing `None`
keeps their energy apart from clamping at `maxEnergy`, triggers neither
their overspend nor their defense-overreach punishment, and cannot win the
round: with the agent playing `None` the outcome is never `2`, and with the
opponent playing `None` the outcome is `1` only through one of the agent's
punishments, never through the adjudication. -/
theorem decode_none_neutral (r : Rule) :
    r.decode_action none = (0, 0, 0) ∧
    (∀ (s1 s2 : Int) (act2 : Option Int), 0 ≤ s1 → 0 ≤ s2 → 0 ≤ r.n_max_energy →
      (r.step s1 s2 none act2).1 = min s1 r.n_max_energy ∧
      (r.step s1 s2 none act2).2.2 ≠ 2) ∧
    (∀ (s1 s2 : Int) (act1 : Option Int), 0 ≤ s2 → 0 ≤ r.n_max_energy →
      (r.step s1 s2 act1 none).2.1 = min s2 r.n_max_energy ∧
      (0 ≤ min (s1 + (r.decode_action act1).1 - (r.decode_action act1).2.1)
          r.n_max_energy →
        ¬ s2 < (r.decode_action act1).2.2 →
        (r.step s1 s2 act1 none).2.2 ≠ 1)) := by
  refine ⟨rfl, fun s1 s2 act2 hs1 hs2 hm => ?_, fun s1 s2 act1 hs2 hm => ?_⟩
  · unfold Rule.step Rule.stepDecoded adjudicate
    generalize r.decode_action act2 = t2
    obtain ⟨y2, a2, d2⟩ := t2
    simp only [Rule.decode_action]
    split_ifs <;> dsimp only <;> omega
  · unfold Rule.step Rule.stepDecoded adjudicate
    revert hs2 hm
    generalize r.decode_action act1 = t1
    obtain ⟨y1, a1, d1⟩ := t1
    intro hs2 hm
    simp only [Rule.decode_action]
    split_ifs <;> dsimp only <;> refine ⟨by omega, fun hag hdef => by omega⟩

/-- Witness for C10: the agent plays `None` against Attack(1) from
energies `(2, 3)`. -/
theorem decode_none_neutral_witness :
    (defaultRule.step 2 3 none (some 1)).1 = min 2 defaultRule.n_max_energy ∧
    (defaultRule.step 2 3 none (some 1)).2.2 ≠ 2 := by
  exact (decode_none_neutral defaultRule).2.1 2 3 (some 1) (by decide) (by decide)
    (by decide)

/-- C5.  The observation encoding maps a non-terminal state `(own, opp)`
with both energies in `[0, maxEnergy]` to `own·(maxEnergy+1) + opp`, a loss
to the sentinel `(maxEnergy+1)^2`, a win to `(maxEnergy+1)^2 + 1`; the
opponent's observation of the same state is the mirror of the agent's, and
the mirror is an involution on the whole observation space. -/
theorem obs_encoding_mirror (r : Rule) (own opp : Int)
    (ho : 0 ≤ own) (ho' : own ≤ r.n_max_energy)
    (hp : 0 ≤ opp) (hp' : opp ≤ r.n_max_energy) :
    getObsOf r own opp 0 = own * (r.n_max_energy + 1) + opp ∧
    getObsOf r own opp 1 = (r.n_max_energy + 1) ^ 2 ∧
    getObsOf r own opp 2 = (r.n_max_energy + 1) ^ 2 + 1 ∧
    (∀ game : Int, oppoObsOf r own opp game = mirrorObs r (getObsOf r own opp game)) ∧
    (∀ obs : Int, 0 ≤ obs → obs ≤ (r.n_max_energy + 1) ^ 2 + 1 →
      mirrorObs r (mirrorObs r obs) = obs) := by
  refine ⟨rfl, rfl, rfl, fun game => ?_,
    fun obs h0 h1 => mirrorObs_mirrorObs r (by omega) obs h0 h1⟩
  unfold getObsOf oppoObsOf
  split_ifs with hg0 hg1
  · exact (mirrorObs_encode r own opp ho ho' hp hp').symm
  · exact (mirrorObs_loss r).symm
  · exact (mirrorObs_win r).symm

/-- Witness for C5 at energies `(2, 3)` under the default rule;
`15 = 2·6 + 3` is the corresponding observation. -/
theorem obs_encoding_mirror_witness :
    getObsOf defaultRule 2 3 0 = 2 * (defaultRule.n_max_energy + 1) + 3 ∧
    mirrorObs defaultRule (mirrorObs defaultRule 15) = 15 := by
  have h := obs_encoding_mirror defaultRule 2 3 (by decide) (by decide)
    (by decide) (by decide)
  exact ⟨h.1, h.2.2.2.2 15 (by decide) (by decide)⟩

/-- C6.  `YunEnv.step` truncates exactly when the new observation already
occurred before this step or the number of completed steps has reached the
step budget; the new observation is appended to the history in either case,
and an episode started with a zeroed counter is truncated at latest at its
`K`-th step, so every episode ends within `K` steps. -/
theorem step_truncation (r : Rule) (K : Nat) (s : EnvState) (a b : Option Int) :
    ((envStep r K s a b).truncated = true ↔
      ((envStep r K s a b).obs ∈ s.obs_history ∨ K ≤ s.i_step + 1)) ∧
    (envStep r K s a b).state.obs_history = s.obs_history ++ [(envStep r K s a b).obs] ∧
    (envStep r K s a b).state.i_step = s.i_step + 1 ∧
    (∀ (s0 : EnvState) (acts : List (Option Int × Option Int)),
      s0.i_step = 0 → acts.length + 1 = K →
      (envStep r K (runFrom r K s0 acts) a b).truncated = true) := by
  refine ⟨envStep_truncated_iff r K s a b, rfl, rfl, fun s0 acts h0 hK => ?_⟩
  rw [envStep_truncated_iff]
  right
  rw [runFrom_i_step r K acts s0]
  omega

/-- Witness for C6: with step budget `K = 1`, the very first step out of a
fresh state is truncated. -/
theorem step_truncation_witness :
    (envStep defaultRule 1 ⟨1, 1, 0, 0, []⟩ none none).truncated = true := by
  have h := step_truncation defaultRule 1 ⟨1, 1, 0, 0, []⟩ none none
  exact h.2.2.2 ⟨1, 1, 0, 0, []⟩ [] rfl rfl

/-- C9, counterexample.  Two resets of the same configuration with the same
seed do NOT in general produce identical initial energies or observations:
the draws come from the process-global RNG stream, not from the RNG seeded
through the reset call, so resetting at global cursor `0` versus cursor `2`
with the identical seed `0` yields energies `(0, 1)` versus `(2, 3)` and
observations `1` versus `15`. -/
theorem reset_seed_counterexample :
    (resetState defaultRule (some 0) true sampleStream 0).1.agent_state = 0 ∧
    (resetState defaultRule (some 0) true sampleStream 0).1.opponent_state = 1 ∧
    (resetState defaultRule (some 0) true sampleStream 2).1.agent_state = 2 ∧
    (resetState defaultRule (some 0) true sampleStream 2).1.opponent_state = 3 ∧
    getObs defaultRule (resetState defaultRule (some 0) true sampleStream 0).1 = 1 ∧
    getObs defaultRule (resetState defaultRule (some 0) true sampleStream 2).1 = 15 := by
  decide

/-- C9, amended.  `reset` is deterministic given the state of the
process-global RNG: two resets of the same configuration with the same
global stream and cursor produce identical episode states and cursors
whatever seeds are passed — the seed argument (forwarded only to
`self.np_random`) has no influence on the energy draws. -/
theorem reset_determinism_global_rng (r : Rule) (seed1 seed2 : Option Nat)
    (train : Bool) (g : Nat → Nat) (idx : Nat) :
    resetState r seed1 train g idx = resetState r seed2 train g idx := rfl

end AlphaYun
